import Mathlib

/-!
Verification of the Tenant Hunter evaluation pipeline (src/tenant_hunter.py).

The Python source is shallowly embedded: pure fragments become Lean
functions; every external HTTP interaction (Yelp listing search, Yelp
review lookup, Gemini scoring) is abstracted as an oracle argument giving
the outcome of each call, so the control flow around those calls is
modelled exactly while the network itself stays external.

Ratings and scores travel through JSON as numbers; they are modelled as
rationals (`ℚ`), which captures every decimal value the APIs produce.
Review counts are natural numbers.
-/

namespace TenantHunter

/-- Module-level constant `BATCH_SIZE = 20` from the configuration block. -/
def BATCH_SIZE : Nat := 20

/-- Module-level constant `FILTER_HIGH_ONLY = True` from the configuration block. -/
def FILTER_HIGH_ONLY : Bool := true

/-- Module-level constant `REVIEW_FILTER_MIN_COUNT = 3`. -/
def REVIEW_FILTER_MIN_COUNT : Nat := 3

/-- Module-level constant `RATING_FILTER_MIN = 3.0`. -/
def RATING_FILTER_MIN : ℚ := 3

/-- A business lead as the dict built in `yelp_search_leads` (lines 180-190):
name, first display-address line, phone, Yelp business id, rating,
review count, the search term recorded as `business_type`, the constant
source label, and the (initially empty) list of review texts. -/
structure Lead where
  name : String
  address : String
  phone : String
  business_id : String
  rating : ℚ
  review_count : Nat
  business_type : String
  source : String
  reviews : List String
deriving DecidableEq, Repr

/-- The initial filter inside `yelp_search_leads` (line 177):
`if review_count < REVIEW_FILTER_MIN_COUNT or rating < RATING_FILTER_MIN: continue`.
`listingKeep` is true exactly when the lead is NOT skipped. -/
def listingKeep (rating : ℚ) (review_count : Nat) : Bool :=
  !(decide (review_count < REVIEW_FILTER_MIN_COUNT) || decide (rating < RATING_FILTER_MIN))

/-- Python `range(0, stop, step)` for a positive step: the multiples of
`step` below `stop`, i.e. `ceil(stop/step)` many.  (For `step = 0` Python
raises `ValueError`; here the expression happens to return `[]`, which is
outside every claim, all of which assume a positive step.) -/
def rangeStep (stop step : Nat) : List Nat :=
  (List.range ((stop + step - 1) / step)).map (fun k => k * step)

/-- The batching loop of `run_scan` (lines 407-408):
`for i in range(0, len(leads), BATCH_SIZE): batch = leads[i:i + BATCH_SIZE]`,
with the slice `leads[i:i+bs]` rendered as `(xs.drop i).take bs`. -/
def partitionBatches {α : Type} (bs : Nat) (xs : List α) : List (List α) :=
  (rangeStep xs.length bs).map (fun i => (xs.drop i).take bs)

theorem rangeStep_zero (step : Nat) : rangeStep 0 step = [] := by
  cases step with
  | zero => simp [rangeStep]
  | succ n =>
    simp only [rangeStep, Nat.zero_add, Nat.succ_sub_one]
    rw [Nat.div_eq_of_lt (Nat.lt_succ_self n)]
    simp

theorem partitionBatches_nil {α : Type} (bs : Nat) :
    partitionBatches bs ([] : List α) = [] := by
  simp [partitionBatches, rangeStep_zero]

theorem ceil_count {bs n : Nat} (hbs : 0 < bs) (hn : 0 < n) :
    (n + bs - 1) / bs = (n - bs + bs - 1) / bs + 1 := by
  rcases Nat.lt_or_ge n bs with h | h
  · have h1 : n - bs = 0 := Nat.sub_eq_zero_of_le (Nat.le_of_lt h)
    have h2 : (n + bs - 1) / bs = 1 := Nat.div_eq_of_lt_le (by omega) (by omega)
    have h3 : (n - bs + bs - 1) / bs = 0 := by
      rw [h1, Nat.zero_add]
      exact Nat.div_eq_of_lt (by omega)
    rw [h2, h3]
  · rw [← Nat.add_div_right (n - bs + bs - 1) hbs]
    congr 1
    omega

theorem partitionBatches_cons {α : Type} (bs : Nat) (xs : List α)
    (hbs : 0 < bs) (hxs : xs ≠ []) :
    partitionBatches bs xs = xs.take bs :: partitionBatches bs (xs.drop bs) := by
  have hn : 0 < xs.length := List.length_pos.mpr hxs
  unfold partitionBatches rangeStep
  rw [List.length_drop]
  rw [ceil_count hbs hn]
  rw [List.range_succ_eq_map]
  simp only [List.map_cons, List.map_map, Nat.zero_mul, List.drop_zero]
  congr 1
  apply List.map_congr_left
  intro k _
  simp only [Function.comp_apply]
  rw [Nat.succ_mul, List.drop_drop]
  congr 2
  omega

/-- Concatenating the batches restores the input list. -/
theorem partitionBatches_flatten {α : Type} (bs : Nat) (xs : List α) (hbs : 0 < bs) :
    (partitionBatches bs xs).flatten = xs := by
  rcases eq_or_ne xs [] with h | h
  · subst h; rw [partitionBatches_nil]; rfl
  · rw [partitionBatches_cons bs xs hbs h]
    rw [List.flatten_cons]
    rw [partitionBatches_flatten bs (xs.drop bs) hbs]
    exact List.take_append_drop bs xs
termination_by xs.length
decreasing_by
  have := List.length_pos.mpr h
  rw [List.length_drop]
  omega

/-- Every batch except possibly the last has length exactly `bs`. -/
theorem partitionBatches_dropLast {α : Type} (bs : Nat) (xs : List α) (hbs : 0 < bs) :
    ∀ b ∈ (partitionBatches bs xs).dropLast, b.length = bs := by
  rcases eq_or_ne xs [] with h | h
  · subst h; rw [partitionBatches_nil]; intro b hb; simp at hb
  · rw [partitionBatches_cons bs xs hbs h]
    rcases eq_or_ne (xs.drop bs) [] with hd | hd
    · rw [hd, partitionBatches_nil]
      intro b hb; simp at hb
    · have hlen : bs < xs.length := by
        have := List.length_pos.mpr hd
        rw [List.length_drop] at this
        omega
      rcases hcons : partitionBatches bs (xs.drop bs) with _ | ⟨c, rest⟩
      · exact absurd hcons (by rw [partitionBatches_cons bs _ hbs hd]; simp)
      · intro b hb
        rw [List.dropLast_cons₂] at hb
        rcases List.mem_cons.mp hb with hb | hb
        · subst hb
          rw [List.length_take]
          omega
        · have := partitionBatches_dropLast bs (xs.drop bs) hbs
          rw [hcons] at this
          exact this b hb
termination_by xs.length
decreasing_by
  have := List.length_pos.mpr h
  rw [List.length_drop]
  omega

/-- One parsed object of the Gemini response array.  The schema asks for
Likelihood / Score / Reasoning, but the code reads each key with
`dict.get` and a default, so every field is optional here. -/
structure EvalRow where
  likelihood : Option String
  score : Option ℚ
  reasoning : Option String
deriving DecidableEq, Repr

/-- A lead with its evaluation attached: `lead = batch[idx].copy()` plus the
three keys set on lines 326-328, defaults applied (`"Low"`, `0`, `""`). -/
structure EvaluatedLead where
  lead : Lead
  likelihood : String
  score : ℚ
  reasoning : String
deriving DecidableEq, Repr

/-- Lines 325-328: attach one response object to one lead. -/
def applyEval (l : Lead) (er : EvalRow) : EvaluatedLead :=
  ⟨l, er.likelihood.getD "Low", er.score.getD 0, er.reasoning.getD ""⟩

/-- Lines 319-329: `for idx, eval_row in enumerate(evals): if idx >= len(batch): break`
followed by the positional attachment — pairing truncated at the shorter
of the response array and the batch, which is exactly `List.zipWith`. -/
def mapEvals (batch : List Lead) (evals : List EvalRow) : List EvaluatedLead :=
  List.zipWith applyEval batch evals

/-- Stable insertion of `a` (the earlier element) in front of the first
element whose score is strictly smaller; equal scores keep `a` first. -/
def insertDesc (a : EvaluatedLead) : List EvaluatedLead → List EvaluatedLead
  | [] => [a]
  | b :: bs => if b.score ≤ a.score then a :: b :: bs else b :: insertDesc a bs

/-- Line 332: `sorted(evaluated_leads, key=lambda x: x.get("Score", 0), reverse=True)`.
Python sort is stable, and a stable descending sort is unique, so the
stable descending insertion sort below computes the same list. -/
def sortByScoreDesc : List EvaluatedLead → List EvaluatedLead
  | [] => []
  | a :: as => insertDesc a (sortByScoreDesc as)

/-- One output row (lines 339-350).  `timestamp` stands for the
`datetime.datetime.now().strftime(...)` string captured at emission;
the last cell is the composite `Score: .. | ..` string of line 349. -/
structure Row where
  name : String
  address : String
  phone : String
  rating : ℚ
  review_count : Nat
  business_type : String
  source : String
  likelihood : String
  timestamp : String
  score_reasoning : String
deriving DecidableEq, Repr

/-- Lines 339-350: build one output row from an evaluated lead. -/
def formatRow (now : String) (e : EvaluatedLead) : Row :=
  ⟨e.lead.name, e.lead.address, e.lead.phone, e.lead.rating, e.lead.review_count,
   e.lead.business_type, e.lead.source, e.likelihood, now,
   "Score: " ++ toString e.score ++ " | " ++ e.reasoning⟩

/-- Lines 334-350: the high-only tier filter
(`if FILTER_HIGH_ONLY and lead.get("Likelihood", "Low") != "High": continue`)
followed by row formatting.  `fho` is the FILTER_HIGH_ONLY flag. -/
def filterFormat (fho : Bool) (now : String) (ls : List EvaluatedLead) : List Row :=
  (ls.filter (fun e => !(fho && e.likelihood != "High"))).map (formatRow now)

/-- The observable outcome of one `requests.post` to the scoring API, as
seen by the try/except of lines 278-310. -/
inductive CallOutcome where
  /-- HTTP 200, body has candidates/content/parts, text parses as JSON. -/
  | ok (evals : List EvalRow)
  /-- HTTP 200 but candidates/content/parts missing (line 288). -/
  | missingParts
  /-- HTTP 200 with parts, but the text is not valid JSON (line 307). -/
  | badJson
  /-- An `HTTPError` raised by `raise_for_status` with this status (line 293). -/
  | httpError (status : Nat)
  /-- Any other `requests.exceptions.RequestException` (line 303). -/
  | requestError
deriving DecidableEq, Repr

/-- How the retry loop of `ai_evaluate_batch` ended. -/
inductive RetryResult where
  /-- The `break` of line 287 with the parsed array in hand. -/
  | success (evals : List EvalRow)
  /-- The `return []` of line 298 on a non-429 client error. -/
  | clientError
  /-- the `while`-`else` of line 311: `retry_count` reached `max_retries`. -/
  | exhausted
deriving DecidableEq, Repr

/-- Trace of the retry loop: how it ended, how many HTTP calls were made,
and the successive `time.sleep` durations in seconds. -/
structure RetryTrace where
  result : RetryResult
  calls : Nat
  sleeps : List Nat
deriving DecidableEq, Repr

/-- The retry loop of `ai_evaluate_batch` (lines 275-313).  `call i` is the
outcome of the `(i+1)`-st HTTP request.  `rc` is Python `retry_count`, and
since every iteration of `while retry_count < max_retries` either breaks,
returns, or increments `retry_count`, the loop is structural in
`fuel = max_retries - retry_count`; the call made in an iteration is call
number `rc`.  Each retried failure sleeps `2 ** retry_count` seconds with
the incremented count, i.e. `2 ^ (rc + 1)`. -/
def retryLoop (call : Nat → CallOutcome) : Nat → Nat → RetryTrace
  | 0, rc => ⟨.exhausted, rc, []⟩
  | fuel + 1, rc =>
    let step := fun (_ : Unit) =>
      let t := retryLoop call fuel (rc + 1)
      RetryTrace.mk t.result t.calls (2 ^ (rc + 1) :: t.sleeps)
    match call rc with
    | .ok evals => ⟨.success evals, rc + 1, []⟩
    | .missingParts => step ()
    | .badJson => step ()
    | .requestError => step ()
    | .httpError status =>
      if status == 429 then step ()
      else if 400 ≤ status && status < 500 then ⟨.clientError, rc + 1, []⟩
      else step ()

/-- The retry phase with the initial values of lines 275-276:
`retry_count = 0`, `max_retries = 5`. -/
def aiRetry (call : Nat → CallOutcome) : RetryTrace := retryLoop call 5 0

/-- The outcomes the loop retries: missing body parts, malformed JSON,
other request exceptions, HTTP 429, and HTTP errors outside 400-499. -/
def retryable : CallOutcome → Bool
  | .ok _ => false
  | .missingParts => true
  | .badJson => true
  | .requestError => true
  | .httpError s => s == 429 || !(400 ≤ s && s < 500)

/-- Embeds `ai_evaluate_batch` (lines 228-352): the retry loop obtains the parsed
array or fails the batch; on success the response objects are positionally
attached, the batch is stably sorted by descending score, and the
high-only filter plus row formatting emit the output. -/
def ai_evaluate_batch (fho : Bool) (now : String) (call : Nat → CallOutcome)
    (batch : List Lead) : List Row :=
  match (aiRetry call).result with
  | .success evals => filterFormat fho now (sortByScoreDesc (mapEvals batch evals))
  | .clientError => []
  | .exhausted => []

/-- The per-term evaluation loop of `run_scan` (lines 404-417): partition
the term leads into batches of `bs = BATCH_SIZE`, evaluate each batch, and
extend `evaluated_term_leads` with each batch output in order.
`calls j` is the scoring-call oracle of batch number `j`. -/
def evalTermLeads (fho : Bool) (now : String) (calls : Nat → Nat → CallOutcome)
    (bs : Nat) (leads : List Lead) : List Row :=
  ((partitionBatches bs leads).enum.map
    (fun p => ai_evaluate_batch fho now (calls p.1) p.2)).flatten

/-- Written from the claim wording, for comparison with `evalTermLeads`:
the same batch evaluations, but with the descending sort and the high-only
filter scoped to the WHOLE search term (one sort over all of the term
evaluated candidates) instead of to each batch. -/
def termScopedRankedRows (fho : Bool) (now : String) (calls : Nat → Nat → CallOutcome)
    (bs : Nat) (leads : List Lead) : List Row :=
  filterFormat fho now (sortByScoreDesc
    (((partitionBatches bs leads).enum.map
      (fun p => match (aiRetry (calls p.1)).result with
        | .success evals => mapEvals p.2 evals
        | _ => [])).flatten))

/-- The observable outcome of the reviews request in `get_yelp_reviews`
(lines 208-222).  On success the body parses to a `reviews` array whose
objects each carry an optional `text` field. -/
inductive ReviewsOutcome where
  | ok (reviewTexts : List (Option String))
  | httpError (status : Nat)
  | requestError
deriving DecidableEq, Repr

/-- Embeds `get_yelp_reviews` (lines 201-225): on success collect
`review.get("text", "")` for each review object; every handled exception
(404 passed over silently, 429 and the rest merely logged) falls through
to `return reviews` with the accumulator still empty. -/
def get_yelp_reviews : ReviewsOutcome → List String
  | .ok texts => texts.map (fun t => t.getD "")
  | .httpError _ => []
  | .requestError => []

/-- The enrichment loop of `run_scan` (lines 397-401): every lead with a
truthy business id gets its `reviews` field replaced by the lookup result.
`lookup` is the external reviews endpoint keyed by business id; Python
truthiness of the id is modelled as being nonempty. -/
def enrichLeads (lookup : String → ReviewsOutcome) (leads : List Lead) : List Lead :=
  leads.map (fun l =>
    if l.business_id ≠ "" then
      { l with reviews := get_yelp_reviews (lookup l.business_id) }
    else l)

/-- The per-lead fragment of the scoring prompt (lines 244-249): the
business line always; the review block only when the review list is
nonempty (`if lead["reviews"]:`). -/
def leadPromptLines (l : Lead) : List String :=
  ("- Business: " ++ l.name ++ ", Type: " ++ l.business_type ++ ", Rating: "
      ++ toString l.rating ++ ", Review Count: " ++ toString l.review_count ++ "\n")
    :: (if l.reviews.isEmpty then []
        else "  Recent Reviews:\n" :: l.reviews.map (fun r => "  - \"" ++ r ++ "\"\n"))

/-- A raw business object of the Yelp search response, restricted to the
fields lines 172-190 read.  `rating` and `review_count` are read with
`dict.get(key, 0)`, so they are optional here; the remaining fields are
stored as-is into the lead and no claim exercises their absence, so they
are plain strings (`address` stands for the first display-address line). -/
structure Business where
  name : String
  address : String
  phone : String
  id : String
  rating : Option ℚ
  review_count : Option Nat
deriving DecidableEq, Repr

/-- The body of the per-business loop (lines 172-191): read rating and
review count with default `0`, skip the business unless `listingKeep`
holds, otherwise build the lead dict with `business_type = term`,
`source = "Yelp API"` and an empty review list. -/
def businessToLead (term : String) (b : Business) : Option Lead :=
  let rating := b.rating.getD 0
  let review_count := b.review_count.getD 0
  if listingKeep rating review_count then
    some ⟨b.name, b.address, b.phone, b.id, rating, review_count, term, "Yelp API", []⟩
  else none

/-- The paging loop body of `yelp_search_leads` (lines 158-197) over a
list of offsets.  At offset `off` the request asks for
`min(limit - off, 50)` results; `fetch off pl = none` models a
`RequestException`, which `break`s the loop.  Returns the accumulated
leads together with the `(offset, page limit)` pairs actually requested. -/
def yelpPages (fetch : Nat → Nat → Option (List Business)) (term : String)
    (limit : Nat) : List Nat → List Lead × List (Nat × Nat)
  | [] => ([], [])
  | off :: rest =>
    let pl := min (limit - off) 50
    match fetch off pl with
    | none => ([], [(off, pl)])
    | some bs =>
      let r := yelpPages fetch term limit rest
      (bs.filterMap (businessToLead term) ++ r.1, (off, pl) :: r.2)

/-- Embeds `yelp_search_leads(term, city, limit, radius)` (lines 150-199): the
offsets attempted are `range(0, limit, 50)`.  The city and radius only
parameterise the external request, so they live inside `fetch`. -/
def yelp_search_leads (fetch : Nat → Nat → Option (List Business))
    (term : String) (limit : Nat) : List Lead × List (Nat × Nat) :=
  yelpPages fetch term limit (rangeStep limit 50)

/-- Python `str.strip()` whitespace test, ASCII part (space, tab, newline,
carriage return, vertical tab, form feed). -/
def pyIsSpace (c : Char) : Bool :=
  c == ' ' || c == '\t' || c == '\n' || c == '\r' || c == '\x0b' || c == '\x0c'

/-- Python `str.strip()`: drop leading and trailing whitespace. -/
def pyStrip (s : String) : String :=
  ⟨(((s.data.dropWhile pyIsSpace).reverse.dropWhile pyIsSpace).reverse)⟩

/-- Python `str.lower()`; ASCII case mapping, which is all the comparison
with the literal `"active"` can distinguish. -/
def pyLower (s : String) : String := ⟨s.data.map Char.toLower⟩

/-- Line 372: the job guard
`control_dict.get("Status (paused/active)", "").strip().lower() != "active"`;
`jobIsActive` is true exactly when the job is NOT skipped. -/
def jobIsActive (status : String) : Bool := pyLower (pyStrip status) == "active"

/-- Written from the claim wording, for comparison with `jobIsActive`: the
flag case-insensitively equals `"active"` (no whitespace stripping). -/
def caseInsensitiveActive (status : String) : Bool := pyLower status == "active"

/-- One row of the control sheet, reduced to the fields `run_scan` reads
(lines 372-381).  `status` is the "Status (paused/active)" cell, `""` when
the column is missing; `searchTerms` is the already split and stripped
"Search Terms" cell; `sheetPref` is the "Sheet Prefix" cell. -/
structure ControlJob where
  status : String
  propertyName : String
  city : String
  searchTerms : List String
  sheetPref : String
  suiteSizes : String
deriving DecidableEq, Repr

/-- What the external world answers while one job runs: for each search
term, the enriched leads that the Yelp search plus review enrichment
produced for it, and for each term and batch number the scoring-call
oracle.  (The Yelp and review layers are modelled separately above; the
job layer consumes their composite through this interface.) -/
structure JobOracle where
  termLeads : String → List Lead
  termCalls : String → Nat → Nat → CallOutcome

/-- One sheet write performed by a job (lines 423-428). -/
structure SheetWrite where
  sheet : String
  rows : List Row
deriving DecidableEq, Repr

/-- The rows one search term contributes to a job (lines 386-417). -/
def jobTermRows (fho : Bool) (now : String) (o : JobOracle) (term : String) : List Row :=
  evalTermLeads fho now (o.termCalls term) BATCH_SIZE (o.termLeads term)

/-- The per-job body of `run_scan` (lines 369-430): skip unless the status
guard holds; otherwise accumulate each term rows in declared order and,
when the accumulator is nonempty, write it to the
`{sheet_prefix}_RankedLeads` sheet.  A skipped or empty job performs no
write. -/
def processJob (fho : Bool) (now : String) (o : JobOracle) (job : ControlJob) :
    List SheetWrite :=
  if jobIsActive job.status then
    let rows := (job.searchTerms.map (jobTermRows fho now o)).flatten
    if rows.isEmpty then [] else [⟨job.sheetPref ++ "_RankedLeads", rows⟩]
  else []

/-- Embeds `run_scan` (lines 354-432) over the control rows: process every job in
order and collect the sheet writes. -/
def run_scan (fho : Bool) (now : String) (oracle : ControlJob → JobOracle)
    (jobs : List ControlJob) : List SheetWrite :=
  (jobs.map (fun j => processJob fho now (oracle j) j)).flatten

/-- A concrete lead used by concrete-input theorems below. -/
def sampleLead : Lead :=
  ⟨"Acme Gym", "1 Main St", "555-0100", "acme-1", 4, 12, "gym", "Yelp API", []⟩

theorem insertDesc_length (a : EvaluatedLead) (l : List EvaluatedLead) :
    (insertDesc a l).length = l.length + 1 := by
  induction l with
  | nil => rfl
  | cons b bs ih =>
    simp only [insertDesc]
    split
    · simp
    · simp [ih]

theorem sortByScoreDesc_length (l : List EvaluatedLead) :
    (sortByScoreDesc l).length = l.length := by
  induction l with
  | nil => rfl
  | cons a as ih => simp [sortByScoreDesc, insertDesc_length, ih]

theorem zipWith_take_left {α β γ : Type} (f : α → β → γ) :
    ∀ (l1 : List α) (l2 : List β),
      List.zipWith f l1 l2 = List.zipWith f l1 (l2.take l1.length)
  | [], _ => rfl
  | _ :: _, [] => rfl
  | a :: l1, b :: l2 => by
    simp only [List.zipWith, List.length_cons, List.take_succ_cons]
    rw [← zipWith_take_left f l1 l2]

/-- C4: the Listing Filter keeps a candidate iff its review count is at
least 3 and its rating at least 3.0; equivalently it rejects iff
`review_count < 3` or `rating < 3.0`; the boundary candidate with exactly
3 reviews and rating exactly 3.0 is kept.  The last conjunct ties the
predicate to the lead-construction step of `yelp_search_leads`. -/
theorem C4_listing_filter (rating : ℚ) (review_count : Nat) :
    (listingKeep rating review_count = true ↔ 3 ≤ review_count ∧ 3 ≤ rating) ∧
    (listingKeep rating review_count = false ↔ review_count < 3 ∨ rating < 3) ∧
    listingKeep 3 3 = true ∧
    ∀ (term : String) (b : Business),
      (businessToLead term b).isSome = listingKeep (b.rating.getD 0) (b.review_count.getD 0) := by
  refine ⟨?_, ?_, by decide, ?_⟩
  · simp [listingKeep, REVIEW_FILTER_MIN_COUNT, RATING_FILTER_MIN, not_lt]
  · simp [listingKeep, REVIEW_FILTER_MIN_COUNT, RATING_FILTER_MIN, not_lt]
    by_cases hrc : 3 ≤ review_count
    · simp [hrc, show ¬review_count < 3 by omega]
    · simp [hrc, show review_count < 3 by omega]
  · intro term b
    simp only [businessToLead]
    split <;> simp_all

/-- C5: for every candidate list and batch size ≥ 1, the batches
concatenate to exactly the input list (hence non-overlapping, order and
total count preserved), and every batch except possibly the last has
length exactly `batch_size`. -/
theorem C5_batch_partitioner {α : Type} (bs : Nat) (xs : List α) (hbs : 1 ≤ bs) :
    (partitionBatches bs xs).flatten = xs ∧
    (partitionBatches bs xs).flatten.length = xs.length ∧
    ∀ b ∈ (partitionBatches bs xs).dropLast, b.length = bs := by
  refine ⟨partitionBatches_flatten bs xs hbs, ?_, partitionBatches_dropLast bs xs hbs⟩
  rw [partitionBatches_flatten bs xs hbs]

theorem C5_batch_partitioner_witness :
    1 ≤ 2 ∧
    ((partitionBatches 2 [10, 20, 30, 40, 50]).flatten = [10, 20, 30, 40, 50] ∧
      (partitionBatches 2 [10, 20, 30, 40, 50]).flatten.length = 5 ∧
      ∀ b ∈ (partitionBatches 2 [10, 20, 30, 40, 50]).dropLast, b.length = 2) :=
  ⟨by decide, C5_batch_partitioner 2 [10, 20, 30, 40, 50] (by decide)⟩

/-- C3: with a scoring response of length M at most the batch length N,
exactly M evaluated tuples are produced, and the i-th response object is
attached to the i-th input candidate; the candidates beyond the matched
prefix are dropped from the batch output. -/
theorem C3_positional_matching (batch : List Lead) (evals : List EvalRow)
    (h : evals.length ≤ batch.length) :
    (mapEvals batch evals).length = evals.length ∧
    ∀ i (hi : i < evals.length),
      (mapEvals batch evals).get ⟨i, by simp [mapEvals]; omega⟩ =
        applyEval (batch.get ⟨i, by omega⟩) (evals.get ⟨i, hi⟩) := by
  constructor
  · simp [mapEvals]
    omega
  · intro i hi
    simp [mapEvals]

theorem C3_positional_matching_witness :
    ((mapEvals [sampleLead, sampleLead] [⟨some "High", some 7, some "r"⟩]).length = 1) ∧
    (mapEvals [sampleLead, sampleLead] [⟨some "High", some 7, some "r"⟩] =
      [applyEval sampleLead ⟨some "High", some 7, some "r"⟩]) :=
  ⟨(C3_positional_matching [sampleLead, sampleLead] [⟨some "High", some 7, some "r"⟩]
      (by decide)).1, by decide⟩

/-- C9: with a scoring response longer than the batch (M > N), only the
first N response objects are used, the extra entries are ignored without
error, and the batch never yields more than N rows. -/
theorem C9_overlong_response (fho : Bool) (now : String) (batch : List Lead)
    (evals : List EvalRow) (h : batch.length ≤ evals.length) :
    (mapEvals batch evals).length = batch.length ∧
    mapEvals batch evals = mapEvals batch (evals.take batch.length) ∧
    (filterFormat fho now (sortByScoreDesc (mapEvals batch evals))).length ≤ batch.length := by
  refine ⟨?_, zipWith_take_left applyEval batch evals, ?_⟩
  · simp [mapEvals]
    omega
  · calc (filterFormat fho now (sortByScoreDesc (mapEvals batch evals))).length
        ≤ (sortByScoreDesc (mapEvals batch evals)).length := by
          simp only [filterFormat, List.length_map]
          exact List.length_filter_le _ _
      _ = (mapEvals batch evals).length := sortByScoreDesc_length _
      _ ≤ batch.length := by simp [mapEvals]

theorem C9_overlong_response_witness :
    ((mapEvals [sampleLead] [⟨some "High", some 7, some "r"⟩, ⟨some "Low", some 1, none⟩]).length = 1) ∧
    (mapEvals [sampleLead] [⟨some "High", some 7, some "r"⟩, ⟨some "Low", some 1, none⟩] =
      mapEvals [sampleLead] [⟨some "High", some 7, some "r"⟩]) ∧
    (filterFormat true "t" (sortByScoreDesc
      (mapEvals [sampleLead] [⟨some "High", some 7, some "r"⟩, ⟨some "Low", some 1, none⟩]))).length ≤ 1 := by
  have h := C9_overlong_response true "t" [sampleLead]
    [⟨some "High", some 7, some "r"⟩, ⟨some "Low", some 1, none⟩] (by decide)
  exact ⟨h.1, by decide, h.2.2⟩

/-- C10: a response object with a missing Likelihood defaults to "Low",
a missing Score to 0 and a missing Reasoning to the empty string, instead
of failing the parse or triggering a retry; with the high-only filter
enabled, the Likelihood-less candidate is then dropped from the batch
output. -/
theorem C10_missing_field_defaults (l : Lead) (er : EvalRow) (now : String)
    (hl : er.likelihood = none) :
    (applyEval l er).likelihood = "Low" ∧
    (er.score = none → (applyEval l er).score = 0) ∧
    (er.reasoning = none → (applyEval l er).reasoning = "") ∧
    ai_evaluate_batch true now (fun _ => .ok [er]) [l] = [] := by
  refine ⟨by simp [applyEval, hl], fun hs => by simp [applyEval, hs],
    fun hr => by simp [applyEval, hr], ?_⟩
  have h1 : aiRetry (fun _ => CallOutcome.ok [er]) = ⟨.success [er], 1, []⟩ := rfl
  simp [ai_evaluate_batch, h1, mapEvals, sortByScoreDesc, insertDesc, filterFormat,
    applyEval, hl]

theorem C10_missing_field_defaults_witness :
    (⟨none, none, none⟩ : EvalRow).likelihood = none ∧
    ((applyEval sampleLead ⟨none, none, none⟩).likelihood = "Low" ∧
      ((⟨none, none, none⟩ : EvalRow).score = none →
        (applyEval sampleLead ⟨none, none, none⟩).score = 0) ∧
      ((⟨none, none, none⟩ : EvalRow).reasoning = none →
        (applyEval sampleLead ⟨none, none, none⟩).reasoning = "") ∧
      ai_evaluate_batch true "t" (fun _ => .ok [⟨none, none, none⟩]) [sampleLead] = []) :=
  ⟨rfl, C10_missing_field_defaults sampleLead ⟨none, none, none⟩ "t" rfl⟩

/-- C6: a not-found review lookup never raises: the enrichment yields the
empty review sequence, the candidate stays in the enriched list (same
position count, enriched copy present), and its prompt fragment depends
only on its name, type, rating and review count. -/
theorem C6_not_found_reviews (lookup : String → ReviewsOutcome)
    (leads : List Lead) (l : Lead) (hm : l ∈ leads)
    (hid : l.business_id ≠ "")
    (h404 : lookup l.business_id = .httpError 404) :
    get_yelp_reviews (lookup l.business_id) = [] ∧
    { l with reviews := [] } ∈ enrichLeads lookup leads ∧
    (enrichLeads lookup leads).length = leads.length ∧
    ∀ l2 l3 : Lead, l2.name = l3.name → l2.business_type = l3.business_type →
      l2.rating = l3.rating → l2.review_count = l3.review_count →
      l2.reviews = [] → l3.reviews = [] →
      leadPromptLines l2 = leadPromptLines l3 := by
  refine ⟨by rw [h404]; rfl, ?_, by simp [enrichLeads], ?_⟩
  · refine List.mem_map.mpr ⟨l, hm, ?_⟩
    simp [hid, h404, get_yelp_reviews]
  · intro l2 l3 hn ht hr hc h2 h3
    simp [leadPromptLines, hn, ht, hr, hc, h2, h3]

/-- The reviews endpoint that always answers 404, for the C6 witness. -/
def lookup404 : String → ReviewsOutcome := fun _ => .httpError 404

theorem C6_not_found_reviews_witness :
    sampleLead ∈ [sampleLead] ∧ sampleLead.business_id ≠ "" ∧
    lookup404 sampleLead.business_id = .httpError 404 ∧
    get_yelp_reviews (lookup404 sampleLead.business_id) = [] ∧
    { sampleLead with reviews := [] } ∈ enrichLeads lookup404 [sampleLead] ∧
    (enrichLeads lookup404 [sampleLead]).length = 1 := by
  have h := C6_not_found_reviews lookup404 [sampleLead] sampleLead
    (by decide) (by decide) rfl
  exact ⟨by decide, by decide, rfl, h.1, h.2.1, h.2.2.1⟩

theorem retryLoop_step (call : Nat → CallOutcome) (fuel rc : Nat)
    (h : retryable (call rc) = true) :
    retryLoop call (fuel + 1) rc =
      ⟨(retryLoop call fuel (rc + 1)).result, (retryLoop call fuel (rc + 1)).calls,
        2 ^ (rc + 1) :: (retryLoop call fuel (rc + 1)).sleeps⟩ := by
  cases hc : call rc with
  | ok evals => rw [hc] at h; simp [retryable] at h
  | missingParts => simp [retryLoop, hc]
  | badJson => simp [retryLoop, hc]
  | requestError => simp [retryLoop, hc]
  | httpError s =>
    rw [hc] at h
    simp only [retryable] at h
    by_cases h429 : s = 429
    · simp [retryLoop, hc, h429]
    · have hout : ¬(400 ≤ s ∧ s < 500) := by
        rcases Bool.or_eq_true_iff.mp h with h1 | h1
        · exact absurd (by simpa using h1) h429
        · intro hx
          simp only [Bool.not_eq_eq_eq_not, Bool.not_true, Bool.and_eq_false_iff,
            decide_eq_false_iff_not, not_le, not_lt] at h1
          omega
      simp only [retryLoop, hc]
      rw [if_neg (by simp [h429]), if_neg (by simpa using hout)]

theorem retryLoop_failing_run (call : Nat → CallOutcome) :
    ∀ (k fuel rc : Nat), k ≤ fuel →
      (∀ i, rc ≤ i → i < rc + k → retryable (call i) = true) →
      retryLoop call fuel rc =
        ⟨(retryLoop call (fuel - k) (rc + k)).result,
         (retryLoop call (fuel - k) (rc + k)).calls,
         ((List.range k).map (fun j => 2 ^ (rc + j + 1))) ++
           (retryLoop call (fuel - k) (rc + k)).sleeps⟩
  | 0, fuel, rc, _, _ => by simp
  | k + 1, fuel, rc, hk, h => by
    cases fuel with
    | zero => omega
    | succ fuel =>
      rw [retryLoop_step call fuel rc (h rc (Nat.le_refl rc) (by omega))]
      rw [retryLoop_failing_run call k fuel (rc + 1) (by omega)
        (fun i h1 h2 => h i (by omega) (by omega))]
      have e1 : fuel - k = fuel + 1 - (k + 1) := by omega
      have e2 : rc + 1 + k = rc + (k + 1) := by omega
      rw [e1, e2]
      simp only [RetryTrace.mk.injEq, true_and]
      rw [List.range_succ_eq_map, List.map_cons, List.map_map, List.cons_append]
      have hfg : (fun j => 2 ^ (rc + 1 + j + 1)) = ((fun j => 2 ^ (rc + j + 1)) ∘ Nat.succ) := by
        funext j
        simp only [Function.comp_apply]
        congr 1
        omega
      rw [hfg]

theorem aiRetry_fail_then_ok (call : Nat → CallOutcome) (k : Nat) (hk : k < 5)
    (hfail : ∀ i, i < k → retryable (call i) = true) (evs : List EvalRow)
    (hok : call k = .ok evs) :
    aiRetry call = ⟨.success evs, k + 1, (List.range k).map (fun j => 2 ^ (j + 1))⟩ := by
  unfold aiRetry
  rw [retryLoop_failing_run call k 5 0 (by omega) (fun i h1 h2 => hfail i (by omega))]
  obtain ⟨m, hm⟩ : ∃ m, 5 - k = m + 1 := ⟨4 - k, by omega⟩
  rw [hm]
  have hzk : 0 + k = k := Nat.zero_add k
  rw [hzk]
  simp [retryLoop, hok]

theorem aiRetry_exhausted (call : Nat → CallOutcome)
    (hfail : ∀ i, i < 5 → retryable (call i) = true) :
    aiRetry call = ⟨.exhausted, 5, [2, 4, 8, 16, 32]⟩ := by
  unfold aiRetry
  rw [retryLoop_failing_run call 5 5 0 (Nat.le_refl 5) (fun i h1 h2 => hfail i (by omega))]
  simp only [Nat.sub_self, Nat.zero_add, retryLoop]
  refine congrArg (RetryTrace.mk RetryResult.exhausted 5) ?_
  decide

theorem ai_evaluate_batch_exhausted (fho : Bool) (now : String)
    (call : Nat → CallOutcome) (batch : List Lead)
    (hfail : ∀ i, i < 5 → retryable (call i) = true) :
    ai_evaluate_batch fho now call batch = [] := by
  unfold ai_evaluate_batch
  rw [aiRetry_exhausted call hfail]

theorem evalTermLeads_all_fail (fho : Bool) (now : String)
    (calls : Nat → Nat → CallOutcome) (bs : Nat) (leads : List Lead)
    (hfail : ∀ b i, i < 5 → retryable (calls b i) = true) :
    evalTermLeads fho now calls bs leads = [] := by
  unfold evalTermLeads
  rw [List.flatten_eq_nil_iff]
  intro l hl
  rcases List.mem_map.mp hl with ⟨p, _, hp⟩
  rw [← hp]
  exact ai_evaluate_batch_exhausted fho now (calls p.1) p.2 (hfail p.1)

/-- C2: the retry policy of the AI Evaluator.  (a) any retryable outcome
(missing body, malformed JSON, other request error, HTTP 429 or 5xx) is
retried; (b) four 429s then a success yield the successful result after
exactly 5 calls, with backoff sleeps 2^1..2^4; (c) a non-429 4xx fails the
batch immediately after a single call, with no retry and no sleep;
(d) five consecutive retryable failures exhaust the ceiling of 5 attempts
and the batch yields zero results; (e) a dropped batch leaves every other
batch of the term intact; (f) a term whose batches are all dropped leaves
every other term of the job intact. -/
theorem C2_retry_policy (fho : Bool) (now : String) (call : Nat → CallOutcome) :
    (∀ evs, retryable (call 0) = true → call 1 = .ok evs →
      aiRetry call = ⟨.success evs, 2, [2]⟩) ∧
    (∀ evs, (∀ i, i < 4 → call i = .httpError 429) → call 4 = .ok evs →
      aiRetry call = ⟨.success evs, 5, [2, 4, 8, 16]⟩) ∧
    (∀ s, 400 ≤ s → s < 500 → s ≠ 429 → call 0 = .httpError s →
      aiRetry call = ⟨.clientError, 1, []⟩ ∧
      ∀ batch, ai_evaluate_batch fho now call batch = []) ∧
    ((∀ i, i < 5 → retryable (call i) = true) →
      aiRetry call = ⟨.exhausted, 5, [2, 4, 8, 16, 32]⟩ ∧
      ∀ batch, ai_evaluate_batch fho now call batch = []) ∧
    (∀ (calls : Nat → Nat → CallOutcome) (bs : Nat) (leads : List Lead) (j : Nat),
      (∀ i, i < 5 → retryable (calls j i) = true) →
      evalTermLeads fho now calls bs leads =
        ((partitionBatches bs leads).enum.map
          (fun p => if p.1 = j then [] else ai_evaluate_batch fho now (calls p.1) p.2)).flatten) ∧
    (∀ (o : JobOracle) (terms : List String) (t : String),
      (∀ b i, i < 5 → retryable (o.termCalls t b i) = true) →
      (terms.map (jobTermRows fho now o)).flatten =
        (terms.map (fun tm => if tm = t then [] else jobTermRows fho now o tm)).flatten) := by
  refine ⟨?_, ?_, ?_, ?_, ?_, ?_⟩
  · intro evs h0 h1
    have := aiRetry_fail_then_ok call 1 (by omega)
      (fun i hi => by interval_cases i; exact h0) evs h1
    simpa using this
  · intro evs h429 hok
    have hfail : ∀ i, i < 4 → retryable (call i) = true := by
      intro i hi
      rw [h429 i hi]
      rfl
    have := aiRetry_fail_then_ok call 4 (by omega) hfail evs hok
    simpa using this
  · intro s h400 h500 h429 hc
    have hr : aiRetry call = ⟨.clientError, 1, []⟩ := by
      unfold aiRetry
      have e5 : (5 : Nat) = 4 + 1 := rfl
      rw [e5]
      simp only [retryLoop, hc]
      rw [if_neg (by simp [h429]), if_pos (by simp [h400, h500])]
    refine ⟨hr, fun batch => ?_⟩
    unfold ai_evaluate_batch
    rw [hr]
  · intro hfail
    exact ⟨aiRetry_exhausted call hfail,
      fun batch => ai_evaluate_batch_exhausted fho now call batch hfail⟩
  · intro calls bs leads j hfail
    unfold evalTermLeads
    congr 1
    apply List.map_congr_left
    intro p _
    by_cases hj : p.1 = j
    · rw [if_pos hj, hj]
      exact ai_evaluate_batch_exhausted fho now (calls j) p.2 (by simpa [hj] using hfail)
    · rw [if_neg hj]
  · intro o terms t hfail
    congr 1
    apply List.map_congr_left
    intro tm _
    by_cases ht : tm = t
    · rw [if_pos ht, ht]
      exact evalTermLeads_all_fail fho now (o.termCalls t) BATCH_SIZE (o.termLeads t) hfail
    · rw [if_neg ht]

/-- A scoring oracle that answers 429 four times, then succeeds. -/
def call429 : Nat → CallOutcome := fun i =>
  match i with
  | 0 => .httpError 429
  | 1 => .httpError 429
  | 2 => .httpError 429
  | 3 => .httpError 429
  | _ => .ok []

theorem C2_retry_policy_witness :
    (∀ i, i < 4 → call429 i = .httpError 429) ∧ call429 4 = .ok [] ∧
    aiRetry call429 = ⟨.success [], 5, [2, 4, 8, 16]⟩ := by
  have h1 : ∀ i, i < 4 → call429 i = .httpError 429 := by
    intro i hi
    interval_cases i <;> rfl
  exact ⟨h1, rfl, (C2_retry_policy true "t" call429).2.1 [] h1 rfl⟩

/-- A response object scoring High with the given score. -/
def highRow (score : ℚ) : EvalRow := ⟨some "High", some score, some ""⟩

/-- Twenty-one identical candidates for one search term: with `BATCH_SIZE = 20`
they split into a batch of 20 and a batch of 1. -/
def c1Leads : List Lead := List.replicate 21 sampleLead

/-- The scoring oracle for the 21-candidate term: batch 0 gets twenty
score-50 High answers, batch 1 gets one score-90 High answer. -/
def c1Calls : Nat → Nat → CallOutcome := fun j _ =>
  if j = 0 then .ok (List.replicate 20 (highRow 50)) else .ok [highRow 90]

/-- C1: the sort/filter scope.  On a term of 21 candidates the code emits
the twenty score-50 rows first and the score-90 row last, because each
batch is sorted separately inside `ai_evaluate_batch`; scoping the sort to
the whole search term (as the claim and the source docstring state) would
put the score-90 row first.  The code therefore sorts per evaluation
batch, not per search term. -/
theorem C1_sort_scoped_per_batch :
    evalTermLeads true "t" c1Calls BATCH_SIZE c1Leads =
      List.replicate 20 (formatRow "t" ⟨sampleLead, "High", 50, ""⟩) ++
        [formatRow "t" ⟨sampleLead, "High", 90, ""⟩] ∧
    termScopedRankedRows true "t" c1Calls BATCH_SIZE c1Leads =
      formatRow "t" ⟨sampleLead, "High", 90, ""⟩ ::
        List.replicate 20 (formatRow "t" ⟨sampleLead, "High", 50, ""⟩) ∧
    evalTermLeads true "t" c1Calls BATCH_SIZE c1Leads ≠
      termScopedRankedRows true "t" c1Calls BATCH_SIZE c1Leads := by
  refine ⟨by decide, by decide, by decide⟩

/-- A job whose status cell has a leading space before "active". -/
def spacedJob : ControlJob :=
  ⟨" active", "Prop A", "Austin", ["gym"], "PA", "1000-2000 sqft"⟩

/-- An oracle giving every term one lead and every batch a High answer. -/
def c7Oracle : ControlJob → JobOracle :=
  fun _ => ⟨fun _ => [sampleLead], fun _ _ _ => .ok [highRow 80]⟩

/-- C7 counterexample: the status `" active"` does not case-insensitively
equal `"active"`, so by the claim the job would be skipped with no
output — but the code strips whitespace first and processes the job,
emitting a sheet write. -/
theorem C7_counterexample :
    caseInsensitiveActive spacedJob.status = false ∧
    run_scan true "t" c7Oracle [spacedJob] =
      [⟨"PA_RankedLeads", [formatRow "t" ⟨sampleLead, "High", 80, ""⟩]⟩] := by
  refine ⟨by decide, by decide⟩

/-- C7 amended: a job is processed iff its status, stripped of leading
and trailing whitespace, case-insensitively equals "active"; a job
failing this guard performs no write and the remaining jobs still run. -/
theorem C7_amended (fho : Bool) (now : String) (oracle : ControlJob → JobOracle)
    (pre post : List ControlJob) (job : ControlJob)
    (h : jobIsActive job.status = false) :
    processJob fho now (oracle job) job = [] ∧
    run_scan fho now oracle (pre ++ job :: post) = run_scan fho now oracle (pre ++ post) ∧
    ∀ s : String, jobIsActive s = (pyLower (pyStrip s) == "active") := by
  refine ⟨by simp [processJob, h], ?_, fun s => rfl⟩
  simp [run_scan, processJob, h]

/-- A job whose status cell says "paused". -/
def pausedJob : ControlJob :=
  ⟨"paused", "Prop B", "Dallas", ["cafe"], "PB", "500 sqft"⟩

theorem C7_amended_witness :
    jobIsActive pausedJob.status = false ∧
    processJob true "t" (c7Oracle pausedJob) pausedJob = [] ∧
    run_scan true "t" c7Oracle ([spacedJob] ++ pausedJob :: []) =
      run_scan true "t" c7Oracle ([spacedJob] ++ []) := by
  have h := C7_amended true "t" c7Oracle [spacedJob] [] pausedJob (by decide)
  exact ⟨by decide, h.1, h.2.1⟩

/-- A listing-search page oracle that always succeeds with zero results. -/
def emptyPage : Nat → Nat → Option (List Business) := fun _ _ => some []

/-- C8 counterexample: with limit 100, the page at offset 0 returns zero
results — fewer than the full page of 50 — yet the code still issues the
second page request at offset 50 instead of stopping. -/
theorem C8_counterexample :
    (yelp_search_leads emptyPage "gym" 100).2 = [(0, 50), (50, 50)] ∧
    (yelp_search_leads emptyPage "gym" 100).2 ≠ [(0, 50)] := by
  refine ⟨by decide, by decide⟩

theorem yelpPages_calls (fetch : Nat → Nat → Option (List Business))
    (term : String) (limit : Nat) : ∀ offs : List Nat,
    ((∀ off pl, fetch off pl ≠ none) →
      (yelpPages fetch term limit offs).2 =
        offs.map (fun off => (off, min (limit - off) 50))) ∧
    (∀ c ∈ (yelpPages fetch term limit offs).2, c.2 ≤ 50) ∧
    ((yelpPages fetch term limit offs).2.map Prod.fst).IsPrefix offs
  | [] => ⟨fun _ => rfl, by simp [yelpPages], by simp [yelpPages]⟩
  | off :: rest => by
    have ih := yelpPages_calls fetch term limit rest
    cases hf : fetch off (min (limit - off) 50) with
    | none =>
      refine ⟨fun hall => absurd hf (hall off _), ?_, ?_⟩
      · intro c hc
        simp only [yelpPages, hf] at hc
        rcases List.mem_singleton.mp hc with h
        rw [h]
        exact Nat.min_le_right _ _
      · simp only [yelpPages, hf]
        exact ⟨rest, rfl⟩
    | some bs =>
      refine ⟨fun hall => ?_, ?_, ?_⟩
      · simp only [yelpPages, hf, List.map_cons]
        rw [ih.1 hall]
      · intro c hc
        simp only [yelpPages, hf] at hc
        rcases List.mem_cons.mp hc with h | h
        · rw [h]
          exact Nat.min_le_right _ _
        · exact ih.2.1 c h
      · simp only [yelpPages, hf, List.map_cons]
        rcases ih.2.2 with ⟨t, ht⟩
        exact ⟨t, by rw [List.cons_append, ht]⟩

/-- C8 amended: the listing search issues sequential paged calls of at
most 50 results each at the offsets `range(0, limit, 50)`.  When every
page request succeeds it issues all of those calls regardless of how few
results any page returned; a request failure cuts the call sequence short
there, so the calls made are always a prefix of the planned offsets. -/
theorem C8_amended (fetch : Nat → Nat → Option (List Business))
    (term : String) (limit : Nat) :
    ((∀ off pl, fetch off pl ≠ none) →
      (yelp_search_leads fetch term limit).2 =
        (rangeStep limit 50).map (fun off => (off, min (limit - off) 50))) ∧
    (∀ c ∈ (yelp_search_leads fetch term limit).2, c.2 ≤ 50) ∧
    ((yelp_search_leads fetch term limit).2.map Prod.fst).IsPrefix (rangeStep limit 50) :=
  yelpPages_calls fetch term limit (rangeStep limit 50)

theorem C8_amended_witness :
    (yelp_search_leads emptyPage "gym" 120).2 = [(0, 50), (50, 50), (100, 20)] := by
  have h := (C8_amended emptyPage "gym" 120).1 (fun off pl => by simp [emptyPage])
  rw [h]
  decide

end TenantHunter
